import Mathlib

/-!
Verification of the deep Socket.IO streaming server
(`src/langgraph/examples/deep_streaming_server.py`).

The server runs a fixed three-stage langgraph pipeline
(analyzer → generator → saver) per incoming `chat` message and translates
the internal `astream_events` stream into external Socket.IO events.
We embed the translation loop of the `chat` handler, the mock database,
and the saver node, and prove the spec's ordering / invariant properties.
-/

namespace DeepStreaming

/-- A persisted record, as built by `MockDatabase.save`:
`id` and `created_at` are assigned by the store, the remaining
fields are copied from the payload. -/
structure Record where
  id : String
  created_at : String
  user_input : String
  analysis : String
  response : String
  deriving DecidableEq, Repr

/-- The `output` payload of an internal `on_chain_end` event, as the `chat`
handler consumes it: the handler only uses `str(output)` (an opaque textual
rendering, modelled by `render`) and the presence/value of the
`"saved_record"` key. -/
structure GOutput where
  render : String
  saved_record : Option Record
  deriving DecidableEq, Repr

/-- A model-stream chunk (`event["data"]["chunk"]`); the handler reads only
its `content`. -/
structure Chunk where
  content : String
  deriving DecidableEq, Repr

/-- One internal event from `graph.astream_events(..., version="v2")`, with
exactly the fields the `chat` handler reads: `event["event"]` (kind),
`event.get("name", "")`, `event["data"]["output"]` (read only for
`on_chain_end`), `event["data"]["chunk"]` (read only for
`on_chat_model_stream`, `none` when absent). -/
structure InternalEvent where
  kind : String
  name : String
  output : GOutput
  chunk : Option Chunk
  deriving DecidableEq, Repr

/-- The external Socket.IO events emitted by the `chat` handler. A `token`'s
node is `Option String` because the handler's `current_node` starts as
Python `None`. -/
inductive ExternalEvent where
  | node_start (node : String)
  | node_end (node : String) (output : String)
  | token (node : Option String) (content : String)
  | db_save (record : Record)
  | done (success : Bool)
  | error (message : String)
  deriving DecidableEq, Repr

/-- `NODE_NAMES = {"analyzer", "generator", "saver"}` (line 126). -/
def NODE_NAMES : List String := ["analyzer", "generator", "saver"]

/-- Python string slicing `s[:500]` (by characters), as in
`str(output)[:500]` at line 174. -/
def strTake (s : String) (n : Nat) : String :=
  ⟨s.data.take n⟩

/-- One iteration of the `chat` handler's `async for` loop (lines 152-189):
given the handler's `current_node` and the next internal event, returns the
updated `current_node` and the external events emitted for this iteration. -/
def chatStep (cn : Option String) (e : InternalEvent) :
    Option String × List ExternalEvent :=
  if e.kind = "on_chain_start" then
    if e.name ∈ NODE_NAMES then
      (some e.name, [ExternalEvent.node_start e.name])
    else (cn, [])
  else if e.kind = "on_chain_end" then
    if e.name ∈ NODE_NAMES then
      if e.name = "saver" then
        match e.output.saved_record with
        | some r =>
            (cn, [ExternalEvent.node_end e.name (strTake e.output.render 500),
                  ExternalEvent.db_save r])
        | none =>
            (cn, [ExternalEvent.node_end e.name (strTake e.output.render 500)])
      else (cn, [ExternalEvent.node_end e.name (strTake e.output.render 500)])
    else (cn, [])
  else if e.kind = "on_chat_model_stream" then
    match e.chunk with
    | some c =>
        if c.content ≠ "" then (cn, [ExternalEvent.token cn c.content])
        else (cn, [])
    | none => (cn, [])
  else (cn, [])

/-- Folding the loop over a list of internal events: final `current_node`
and the concatenation of all emitted external events, in order. -/
def runT (cn : Option String) : List InternalEvent → Option String × List ExternalEvent
  | [] => (cn, [])
  | e :: rest =>
      ((runT (chatStep cn e).1 rest).1,
       (chatStep cn e).2 ++ (runT (chatStep cn e).1 rest).2)

/-- The whole `chat` handler for one run (lines 149-197): `trace` is the
list of internal events the stream delivered before terminating; `err` is
`none` when the stream finished normally (then `done{success: true}` is
emitted) and `some m` when it raised an exception with message `m` after
delivering `trace` (then `error{message: m}` is emitted by the `except`
block). -/
def chat (trace : List InternalEvent) (err : Option String) : List ExternalEvent :=
  (runT none trace).2 ++
    (match err with
     | none => [ExternalEvent.done true]
     | some m => [ExternalEvent.error m])

/-- The mock database: a list of saved records (lines 43-58). -/
structure MockDatabase where
  records : List Record
  deriving DecidableEq, Repr

/-- Payload passed to `MockDatabase.save` by `saver_node` (lines 106-110). -/
structure SavePayload where
  user_input : String
  analysis : String
  response : String
  deriving DecidableEq, Repr

/-- `MockDatabase.save` (lines 47-55): builds a record from a fresh
identifier (`str(uuid.uuid4())`), the current timestamp
(`datetime.now().isoformat()`) — both modelled as parameters since they are
drawn from the environment during the call — and the payload fields;
appends it to `records` and returns it. -/
def MockDatabase.save (db : MockDatabase) (fresh_id now : String)
    (data : SavePayload) : MockDatabase × Record :=
  (⟨db.records ++ [⟨fresh_id, now, data.user_input, data.analysis, data.response⟩]⟩,
   ⟨fresh_id, now, data.user_input, data.analysis, data.response⟩)

/-- The graph state as read by `saver_node`: at that point `user_input`,
`analysis` and `response` are all present. -/
structure SaverState where
  user_input : String
  analysis : String
  response : String
  deriving DecidableEq, Repr

/-- `saver_node` (lines 104-111): saves the three state fields through the
mock database and returns the stored record (the `saved_record` update). -/
def saver_node (db : MockDatabase) (fresh_id now : String) (s : SaverState) :
    MockDatabase × Record :=
  db.save fresh_id now ⟨s.user_input, s.analysis, s.response⟩

/-! ### Basic structural lemmas about the translation loop -/

/-- `current_node` is reassigned only by an `on_chain_start` event whose name
is one of the tracked nodes (line 162). -/
lemma chatStep_fst (cn : Option String) (e : InternalEvent) :
    (chatStep cn e).1 =
      if e.kind = "on_chain_start" ∧ e.name ∈ NODE_NAMES then some e.name
      else cn := by
  unfold chatStep
  split_ifs with h1 h2 h3 h4 h5 h6 <;>
    try simp_all
  · cases e.output.saved_record <;> rfl
  · cases e.chunk with
    | none => rfl
    | some c =>
        by_cases hc : c.content = "" <;> simp [hc]

/-- The external events emitted for a single internal event: nothing, a
single `node_start`, a single `node_end`, a `node_end` followed by a
`db_save`, or a single `token` with nonempty content. -/
lemma chatStep_snd_cases (cn : Option String) (e : InternalEvent) :
    (chatStep cn e).2 = [] ∨
    (e.kind = "on_chain_start" ∧ e.name ∈ NODE_NAMES ∧
      (chatStep cn e).2 = [ExternalEvent.node_start e.name]) ∨
    (e.kind = "on_chain_end" ∧ e.name ∈ NODE_NAMES ∧
      (chatStep cn e).2 =
        [ExternalEvent.node_end e.name (strTake e.output.render 500)]) ∨
    (∃ r, e.kind = "on_chain_end" ∧ e.name = "saver" ∧
      e.output.saved_record = some r ∧
      (chatStep cn e).2 =
        [ExternalEvent.node_end e.name (strTake e.output.render 500),
         ExternalEvent.db_save r]) ∨
    (∃ c, e.kind = "on_chat_model_stream" ∧ c ≠ "" ∧
      (chatStep cn e).2 = [ExternalEvent.token cn c]) := by
  unfold chatStep
  split_ifs with h1 h2 h3 h4 h5 h6 <;>
    try simp_all
  · cases hr : e.output.saved_record <;> simp_all
  · cases hch : e.chunk with
    | none => simp
    | some c =>
        by_cases hc : c.content = "" <;> simp_all

lemma runT_append (a b : List InternalEvent) : ∀ cn : Option String,
    runT cn (a ++ b) =
      ((runT (runT cn a).1 b).1,
       (runT cn a).2 ++ (runT (runT cn a).1 b).2) := by
  induction a with
  | nil => intro cn; simp [runT]
  | cons e rest ih => intro cn; simp [runT, ih, List.append_assoc]

/-! ### Concrete internal events, as the stream delivers them -/

/-- Output payload for events whose `output` the handler never reads. -/
def emptyOut : GOutput := ⟨"", none⟩

/-- An `on_chain_start` event for node `n`. -/
def startEvt (n : String) : InternalEvent := ⟨"on_chain_start", n, emptyOut, none⟩

/-- An `on_chain_end` event for node `n` with output payload `o`. -/
def endEvt (n : String) (o : GOutput) : InternalEvent := ⟨"on_chain_end", n, o, none⟩

/-- An `on_chat_model_stream` event carrying a chunk with content `c`. -/
def tokenEvt (c : String) : InternalEvent :=
  ⟨"on_chat_model_stream", "", emptyOut, some ⟨c⟩⟩

lemma chatStep_start (cn : Option String) (n : String) (hn : n ∈ NODE_NAMES) :
    chatStep cn (startEvt n) = (some n, [ExternalEvent.node_start n]) := by
  simp [chatStep, startEvt, hn]

lemma chatStep_end_nosave (cn : Option String) (n : String) (o : GOutput)
    (hn : n ∈ NODE_NAMES) (ho : o.saved_record = none) :
    chatStep cn (endEvt n o) =
      (cn, [ExternalEvent.node_end n (strTake o.render 500)]) := by
  by_cases hs : n = "saver"
  · simp [chatStep, endEvt, hs, ho, NODE_NAMES]
  · simp [chatStep, endEvt, hn, hs, ho]

lemma chatStep_end_save (cn : Option String) (o : GOutput) (r : Record)
    (ho : o.saved_record = some r) :
    chatStep cn (endEvt "saver" o) =
      (cn, [ExternalEvent.node_end "saver" (strTake o.render 500),
            ExternalEvent.db_save r]) := by
  simp [chatStep, endEvt, NODE_NAMES, ho]

lemma chatStep_token (cn : Option String) (c : String) (hc : c ≠ "") :
    chatStep cn (tokenEvt c) = (cn, [ExternalEvent.token cn c]) := by
  simp [chatStep, tokenEvt, hc]

/-- A block of nonempty model-stream chunks is forwarded verbatim as `token`
events attributed to the current node, which it leaves unchanged. -/
lemma runT_tokens (toks : List String) : ∀ cn : Option String,
    (∀ c ∈ toks, c ≠ "") →
    runT cn (toks.map tokenEvt) =
      (cn, toks.map (fun c => ExternalEvent.token cn c)) := by
  induction toks with
  | nil => intro cn _; simp [runT]
  | cons c rest ih =>
      intro cn h
      have hc : c ≠ "" := h c (by simp)
      have hr := ih cn (fun x hx => h x (by simp [hx]))
      simp [runT, chatStep_token cn c hc, hr]

/-! ### Terminal events -/

/-- `done` and `error` are the terminal events of a run. -/
def isTerminal : ExternalEvent → Bool
  | ExternalEvent.done _ => true
  | ExternalEvent.error _ => true
  | _ => false

/-- The single terminal event the handler emits after the loop: `done` on
normal completion (line 193), `error` when the stream raised (line 197). -/
def terminalOf : Option String → ExternalEvent
  | none => ExternalEvent.done true
  | some m => ExternalEvent.error m

lemma chat_eq (trace : List InternalEvent) (err : Option String) :
    chat trace err = (runT none trace).2 ++ [terminalOf err] := by
  cases err <;> rfl

lemma chatStep_not_terminal (cn : Option String) (e : InternalEvent) :
    ∀ ev ∈ (chatStep cn e).2, isTerminal ev = false := by
  rcases chatStep_snd_cases cn e with h | ⟨_, _, h⟩ | ⟨_, _, h⟩ |
    ⟨r, _, _, _, h⟩ | ⟨c, _, _, h⟩ <;>
    simp [h, isTerminal]

/-- The loop body itself never emits `done` or `error`. -/
lemma runT_not_terminal (l : List InternalEvent) : ∀ (cn : Option String)
    (ev : ExternalEvent), ev ∈ (runT cn l).2 → isTerminal ev = false := by
  induction l with
  | nil => simp [runT]
  | cons e rest ih =>
      intro cn ev hev
      rw [runT] at hev
      rcases List.mem_append.mp hev with h | h
      · exact chatStep_not_terminal cn e ev h
      · exact ih _ ev h

lemma chat_filter_terminal (trace : List InternalEvent) (err : Option String) :
    (chat trace err).filter isTerminal = [terminalOf err] := by
  rw [chat_eq, List.filter_append]
  have h : (runT none trace).2.filter isTerminal = [] :=
    List.filter_eq_nil_iff.mpr
      (fun a ha => by simp [runT_not_terminal trace none a ha])
  cases err <;> simp [h, terminalOf, isTerminal]

lemma chat_getLast (trace : List InternalEvent) (err : Option String) :
    (chat trace err).getLast? = some (terminalOf err) := by
  rw [chat_eq]; exact List.getLast?_concat _

/-! ### Executor trace shapes, modelled from the spec -/

/-- Processing one whole stage block — `StageEntered(n)`, its fragments,
`StageExited(n, o)` with no `saved_record` — emits `node_start`, the tokens
attributed to `n`, and `node_end`, then continues with `current_node = n`. -/
lemma runT_stage (n : String) (toks : List String) (o : GOutput)
    (rest : List InternalEvent) (cn : Option String)
    (hn : n ∈ NODE_NAMES) (ht : ∀ c ∈ toks, c ≠ "")
    (ho : o.saved_record = none) :
    runT cn (startEvt n :: (toks.map tokenEvt ++ (endEvt n o :: rest))) =
      ((runT (some n) rest).1,
       ExternalEvent.node_start n ::
         (toks.map (fun c => ExternalEvent.token (some n) c) ++
           (ExternalEvent.node_end n (strTake o.render 500) ::
             (runT (some n) rest).2))) := by
  rw [runT, chatStep_start cn n hn]
  rw [runT_append, runT_tokens toks (some n) ht]
  rw [runT, chatStep_end_nosave (some n) n o hn ho]
  simp

/-- Modelled from the spec (§4.1, §8): the internal event sequence of a
successful run, as `astream_events` delivers it to the handler — the three
stages in order, each stage's model-stream chunks strictly between its
boundary events, and the saver's output carrying the saved record.
(The executor itself — langgraph's runtime — is not part of the repository's
sources; only its event stream is consumed by the `chat` handler.) -/
def successTrace (toks1 toks2 : List String) (o1 o2 : GOutput)
    (rend : String) (r : Record) : List InternalEvent :=
  startEvt "analyzer" ::
    (toks1.map tokenEvt ++
      (endEvt "analyzer" o1 ::
        (startEvt "generator" ::
          (toks2.map tokenEvt ++
            (endEvt "generator" o2 ::
              [startEvt "saver", endEvt "saver" ⟨rend, some r⟩])))))

/-- One stage that completed before the failure: its name, the contents of
the fragments it streamed, and its merged output. -/
structure StageRun where
  name : String
  toks : List String
  out : GOutput
  deriving DecidableEq, Repr

/-- Modelled from the spec (§4.1, §8): the internal events the stream
delivers before raising, when some stage of the run fails: a complete block
for each stage that finished, then — when the failure occurs after the
failing stage's entry — that stage's `StageEntered` and the fragments it
produced before the error. `entered = none` models failure before entry
(a branch §8's scenario 2 explicitly allows); `bs = []` with
`entered = none` models failure before any stage was entered. The failing
stage may be any of the three (analyzer: `bs = []`; generator: one
completed block; saver: two completed blocks). -/
def failingTrace : List StageRun → Option (String × List String) → List InternalEvent
  | [], none => []
  | [], some (n, ptoks) => startEvt n :: ptoks.map tokenEvt
  | b :: bs, entered =>
      startEvt b.name ::
        (b.toks.map tokenEvt ++ (endEvt b.name b.out :: failingTrace bs entered))

/-- The external events the handler emits for a failing run, before the
final `error`: each completed stage's `node_start`/tokens/`node_end` block,
then the failing stage's `node_start` and partial tokens when it was
entered. -/
def failingEvents : List StageRun → Option (String × List String) → List ExternalEvent
  | [], none => []
  | [], some (n, ptoks) =>
      ExternalEvent.node_start n ::
        ptoks.map (fun c => ExternalEvent.token (some n) c)
  | b :: bs, entered =>
      ExternalEvent.node_start b.name ::
        (b.toks.map (fun c => ExternalEvent.token (some b.name) c) ++
          (ExternalEvent.node_end b.name (strTake b.out.render 500) ::
            failingEvents bs entered))

/-- The names of the stages whose entry the stream delivered after the
completed blocks: none, or the failing stage's. -/
def enteredNames : Option (String × List String) → List String
  | none => []
  | some (n, _) => [n]

/-- The nodes for which a `node_start` was emitted, in emission order. -/
def startedNodes : List ExternalEvent → List String
  | [] => []
  | ExternalEvent.node_start n :: rest => n :: startedNodes rest
  | _ :: rest => startedNodes rest

lemma mem_NODE_NAMES_analyzer : ("analyzer" : String) ∈ NODE_NAMES := by
  simp [NODE_NAMES]

lemma mem_NODE_NAMES_generator : ("generator" : String) ∈ NODE_NAMES := by
  simp [NODE_NAMES]

lemma runT_saver_tail (cn : Option String) (rend : String) (r : Record) :
    runT cn [startEvt "saver", endEvt "saver" ⟨rend, some r⟩] =
      (some "saver",
       [ExternalEvent.node_start "saver",
        ExternalEvent.node_end "saver" (strTake rend 500),
        ExternalEvent.db_save r]) := by
  rw [runT, chatStep_start cn "saver" (by simp [NODE_NAMES])]
  rw [runT, chatStep_end_save (some "saver") ⟨rend, some r⟩ r rfl]
  simp [runT]

/-! ### Claim theorems -/

/-- C1: for every run in which all three stages complete without error, the
external event sequence is exactly `node_start(analyzer)`, the analyzer's
tokens, `node_end(analyzer)`, `node_start(generator)`, the generator's
tokens, `node_end(generator)`, `node_start(saver)`, `node_end(saver)`,
`db_save`, `done` — in this order, with every token inside its stage's
start/end boundary. -/
theorem c1_successful_run_event_order (toks1 toks2 : List String)
    (o1 o2 : GOutput) (rend : String) (r : Record)
    (h1 : o1.saved_record = none) (h2 : o2.saved_record = none)
    (ht1 : ∀ c ∈ toks1, c ≠ "") (ht2 : ∀ c ∈ toks2, c ≠ "") :
    chat (successTrace toks1 toks2 o1 o2 rend r) none =
      ExternalEvent.node_start "analyzer" ::
        (toks1.map (fun c => ExternalEvent.token (some "analyzer") c) ++
          (ExternalEvent.node_end "analyzer" (strTake o1.render 500) ::
            ExternalEvent.node_start "generator" ::
              (toks2.map (fun c => ExternalEvent.token (some "generator") c) ++
                [ExternalEvent.node_end "generator" (strTake o2.render 500),
                 ExternalEvent.node_start "saver",
                 ExternalEvent.node_end "saver" (strTake rend 500),
                 ExternalEvent.db_save r,
                 ExternalEvent.done true]))) := by
  rw [chat_eq, successTrace,
      runT_stage "analyzer" toks1 o1 _ none mem_NODE_NAMES_analyzer ht1 h1,
      runT_stage "generator" toks2 o2 _ (some "analyzer")
        mem_NODE_NAMES_generator ht2 h2,
      runT_saver_tail]
  simp [terminalOf]

/-- C1 witness: a concrete successful run (two analyzer tokens, one
generator token) yields the full ten-event sequence. -/
theorem c1_witness :
    ((⟨"o1", none⟩ : GOutput).saved_record = none ∧
     (⟨"o2", none⟩ : GOutput).saved_record = none ∧
     (∀ c ∈ ["hi ", "there"], c ≠ "") ∧ (∀ c ∈ ["ok"], c ≠ "")) ∧
    chat (successTrace ["hi ", "there"] ["ok"] ⟨"o1", none⟩ ⟨"o2", none⟩ "o3"
        ⟨"id1", "t1", "hello", "a", "r"⟩) none =
      ExternalEvent.node_start "analyzer" ::
        (["hi ", "there"].map (fun c => ExternalEvent.token (some "analyzer") c) ++
          (ExternalEvent.node_end "analyzer" (strTake "o1" 500) ::
            ExternalEvent.node_start "generator" ::
              (["ok"].map (fun c => ExternalEvent.token (some "generator") c) ++
                [ExternalEvent.node_end "generator" (strTake "o2" 500),
                 ExternalEvent.node_start "saver",
                 ExternalEvent.node_end "saver" (strTake "o3" 500),
                 ExternalEvent.db_save ⟨"id1", "t1", "hello", "a", "r"⟩,
                 ExternalEvent.done true]))) :=
  ⟨⟨rfl, rfl, by decide, by decide⟩,
   c1_successful_run_event_order ["hi ", "there"] ["ok"] ⟨"o1", none⟩
     ⟨"o2", none⟩ "o3" ⟨"id1", "t1", "hello", "a", "r"⟩ rfl rfl
     (by decide) (by decide)⟩

/-- C2: whatever internal events the stream delivers and however it
terminates, the handler emits exactly one terminal event (`done` on normal
completion, `error m` when the stream raised `m`), the two are mutually
exclusive, and the terminal event is the last event of the run. -/
theorem c2_exactly_one_terminal_and_last (trace : List InternalEvent)
    (err : Option String) :
    (chat trace err).filter isTerminal = [terminalOf err] ∧
    (chat trace err).getLast? = some (terminalOf err) ∧
    (chat trace none).getLast? = some (ExternalEvent.done true) ∧
    ∀ m, (chat trace (some m)).getLast? = some (ExternalEvent.error m) :=
  ⟨chat_filter_terminal trace err, chat_getLast trace err,
   chat_getLast trace none, fun m => chat_getLast trace (some m)⟩

/-- Each completed stage's block translates to its external block; the
final `current_node` is the last completed stage's name (or the failing
stage's, when its entry was delivered). -/
lemma runT_failingTrace (bs : List StageRun) :
    ∀ (entered : Option (String × List String)) (cn : Option String),
    (∀ b ∈ bs, b.name ∈ NODE_NAMES ∧ (∀ c ∈ b.toks, c ≠ "") ∧
      b.out.saved_record = none) →
    (∀ n ptoks, entered = some (n, ptoks) →
      n ∈ NODE_NAMES ∧ ∀ c ∈ ptoks, c ≠ "") →
    (runT cn (failingTrace bs entered)).2 = failingEvents bs entered := by
  induction bs with
  | nil =>
      intro entered cn _ hent
      cases entered with
      | none => simp [failingTrace, failingEvents, runT]
      | some p =>
          obtain ⟨n, ptoks⟩ := p
          obtain ⟨hn, hp⟩ := hent n ptoks rfl
          simp [failingTrace, failingEvents, runT, chatStep_start cn n hn,
                runT_tokens ptoks (some n) hp]
  | cons b rest ih =>
      intro entered cn hbs hent
      obtain ⟨hn, ht, ho⟩ := hbs b (by simp)
      have ihh := ih entered (some b.name)
        (fun x hx => hbs x (List.mem_cons_of_mem b hx)) hent
      rw [failingTrace,
          runT_stage b.name b.toks b.out (failingTrace rest entered) cn hn ht ho]
      simp [ihh, failingEvents]

lemma startedNodes_append (a b : List ExternalEvent) :
    startedNodes (a ++ b) = startedNodes a ++ startedNodes b := by
  induction a with
  | nil => rfl
  | cons e rest ih => cases e <;> simp [startedNodes, ih]

lemma startedNodes_tokens (n : Option String) (toks : List String) :
    startedNodes (toks.map (fun c => ExternalEvent.token n c)) = [] := by
  induction toks with
  | nil => rfl
  | cons c rest ih => simp [startedNodes, ih]

lemma mem_startedNodes (l : List ExternalEvent) (t : String) :
    t ∈ startedNodes l ↔ ExternalEvent.node_start t ∈ l := by
  induction l with
  | nil => simp [startedNodes]
  | cons e rest ih => cases e <;> simp [startedNodes, ih]

lemma startedNodes_failingEvents (bs : List StageRun) :
    ∀ entered : Option (String × List String),
    startedNodes (failingEvents bs entered) =
      bs.map (fun b => b.name) ++ enteredNames entered := by
  induction bs with
  | nil =>
      intro entered
      cases entered with
      | none => rfl
      | some p =>
          obtain ⟨n, ptoks⟩ := p
          simp [failingEvents, startedNodes, startedNodes_tokens, enteredNames]
  | cons b rest ih =>
      intro entered
      simp [failingEvents, startedNodes, startedNodes_append,
            startedNodes_tokens, ih entered]

/-- C7: for every run in which some stage raises — any failing stage
(analyzer: no completed blocks; generator: one; saver: two), whether the
failure occurs before or after that stage's entry — the client receives the
completed stages' events, the failing stage's entry and partial tokens when
it was entered, then a single `error` as the final event; a stage whose
entry the stream never delivered (in particular every stage after the
failing one) gets no `node_start`, and no stage is started twice — the
failed stage is not retried. -/
theorem c7_stage_failure_aborts (bs : List StageRun)
    (entered : Option (String × List String)) (m : String)
    (hbs : ∀ b ∈ bs, b.name ∈ NODE_NAMES ∧ (∀ c ∈ b.toks, c ≠ "") ∧
      b.out.saved_record = none)
    (hent : ∀ n ptoks, entered = some (n, ptoks) →
      n ∈ NODE_NAMES ∧ ∀ c ∈ ptoks, c ≠ "")
    (hnd : (bs.map (fun b => b.name) ++ enteredNames entered).Nodup) :
    chat (failingTrace bs entered) (some m) =
      failingEvents bs entered ++ [ExternalEvent.error m] ∧
    startedNodes (chat (failingTrace bs entered) (some m)) =
      bs.map (fun b => b.name) ++ enteredNames entered ∧
    (∀ t, t ∉ bs.map (fun b => b.name) ++ enteredNames entered →
      ExternalEvent.node_start t ∉ chat (failingTrace bs entered) (some m)) ∧
    (startedNodes (chat (failingTrace bs entered) (some m))).Nodup ∧
    (chat (failingTrace bs entered) (some m)).getLast? =
      some (ExternalEvent.error m) ∧
    (chat (failingTrace bs entered) (some m)).filter isTerminal =
      [ExternalEvent.error m] := by
  have heq : chat (failingTrace bs entered) (some m) =
      failingEvents bs entered ++ [ExternalEvent.error m] := by
    rw [chat_eq, runT_failingTrace bs entered none hbs hent]
    rfl
  have hsn : startedNodes (chat (failingTrace bs entered) (some m)) =
      bs.map (fun b => b.name) ++ enteredNames entered := by
    rw [heq, startedNodes_append, startedNodes_failingEvents bs entered]
    simp [startedNodes]
  refine ⟨heq, hsn, ?_, ?_, chat_getLast _ _, chat_filter_terminal _ _⟩
  · intro t ht hc
    exact ht (hsn ▸ (mem_startedNodes _ t).mpr hc)
  · rw [hsn]
    exact hnd

/-- C7 witness: the saver stage fails right after its entry, with the
analyzer and generator completed — the run ends in a single `error`, no
stage is started twice, and a stage never entered gets no `node_start`. -/
theorem c7_witness :
    ((∀ b ∈ [(⟨"analyzer", ["hi"], ⟨"o1", none⟩⟩ : StageRun),
             ⟨"generator", ["ok"], ⟨"o2", none⟩⟩],
        b.name ∈ NODE_NAMES ∧ (∀ c ∈ b.toks, c ≠ "") ∧
          b.out.saved_record = none) ∧
     (∀ n ptoks, (some ("saver", ([] : List String))) = some (n, ptoks) →
        n ∈ NODE_NAMES ∧ ∀ c ∈ ptoks, c ≠ "") ∧
     (([(⟨"analyzer", ["hi"], ⟨"o1", none⟩⟩ : StageRun),
        ⟨"generator", ["ok"], ⟨"o2", none⟩⟩].map (fun b => b.name) ++
          enteredNames (some ("saver", []))).Nodup)) ∧
    (chat (failingTrace
        [⟨"analyzer", ["hi"], ⟨"o1", none⟩⟩, ⟨"generator", ["ok"], ⟨"o2", none⟩⟩]
        (some ("saver", []))) (some "boom") =
      failingEvents
        [⟨"analyzer", ["hi"], ⟨"o1", none⟩⟩, ⟨"generator", ["ok"], ⟨"o2", none⟩⟩]
        (some ("saver", [])) ++ [ExternalEvent.error "boom"] ∧
     startedNodes (chat (failingTrace
        [⟨"analyzer", ["hi"], ⟨"o1", none⟩⟩, ⟨"generator", ["ok"], ⟨"o2", none⟩⟩]
        (some ("saver", []))) (some "boom")) =
      [(⟨"analyzer", ["hi"], ⟨"o1", none⟩⟩ : StageRun),
       ⟨"generator", ["ok"], ⟨"o2", none⟩⟩].map (fun b => b.name) ++
        enteredNames (some ("saver", [])) ∧
     (∀ t, t ∉ [(⟨"analyzer", ["hi"], ⟨"o1", none⟩⟩ : StageRun),
          ⟨"generator", ["ok"], ⟨"o2", none⟩⟩].map (fun b => b.name) ++
            enteredNames (some ("saver", [])) →
        ExternalEvent.node_start t ∉ chat (failingTrace
          [⟨"analyzer", ["hi"], ⟨"o1", none⟩⟩, ⟨"generator", ["ok"], ⟨"o2", none⟩⟩]
          (some ("saver", []))) (some "boom")) ∧
     (startedNodes (chat (failingTrace
        [⟨"analyzer", ["hi"], ⟨"o1", none⟩⟩, ⟨"generator", ["ok"], ⟨"o2", none⟩⟩]
        (some ("saver", []))) (some "boom"))).Nodup ∧
     (chat (failingTrace
        [⟨"analyzer", ["hi"], ⟨"o1", none⟩⟩, ⟨"generator", ["ok"], ⟨"o2", none⟩⟩]
        (some ("saver", []))) (some "boom")).getLast? =
      some (ExternalEvent.error "boom") ∧
     (chat (failingTrace
        [⟨"analyzer", ["hi"], ⟨"o1", none⟩⟩, ⟨"generator", ["ok"], ⟨"o2", none⟩⟩]
        (some ("saver", []))) (some "boom")).filter isTerminal =
      [ExternalEvent.error "boom"]) :=
  ⟨⟨by decide, by intro n ptoks h; cases h; exact ⟨by decide, by decide⟩,
    by decide⟩,
   c7_stage_failure_aborts
     [⟨"analyzer", ["hi"], ⟨"o1", none⟩⟩, ⟨"generator", ["ok"], ⟨"o2", none⟩⟩]
     (some ("saver", [])) "boom" (by decide)
     (by intro n ptoks h; cases h; exact ⟨by decide, by decide⟩)
     (by decide)⟩

/-! ### Placement of `db_save` -/

def isDbSave : ExternalEvent → Bool
  | ExternalEvent.db_save _ => true
  | _ => false

/-- Whether the previous event was a `node_end` for the saver stage. -/
def isSaverEnd : Option ExternalEvent → Bool
  | some (ExternalEvent.node_end n _) => n == "saver"
  | _ => false

/-- Scans an event list checking that every `db_save` is immediately
preceded by a `node_end` of the saver stage; `prev` is the event preceding
the list (`none` at the start of the run). -/
def dbSaveOkAux (prev : Option ExternalEvent) : List ExternalEvent → Bool
  | [] => true
  | e :: rest => (!isDbSave e || isSaverEnd prev) && dbSaveOkAux (some e) rest

/-- The event preceding whatever follows `a`, when `prev` precedes `a`. -/
def lastFrom (prev : Option ExternalEvent) : List ExternalEvent → Option ExternalEvent
  | [] => prev
  | e :: rest => lastFrom (some e) rest

lemma dbSaveOkAux_append (a : List ExternalEvent) : ∀ (prev : Option ExternalEvent)
    (b : List ExternalEvent),
    dbSaveOkAux prev (a ++ b) =
      (dbSaveOkAux prev a && dbSaveOkAux (lastFrom prev a) b) := by
  induction a with
  | nil => intro prev b; simp [dbSaveOkAux, lastFrom]
  | cons e rest ih =>
      intro prev b
      simp [dbSaveOkAux, lastFrom, ih, Bool.and_assoc]

lemma chatStep_dbSaveOk (cn : Option String) (e : InternalEvent)
    (prev : Option ExternalEvent) :
    dbSaveOkAux prev (chatStep cn e).2 = true := by
  rcases chatStep_snd_cases cn e with h | ⟨_, _, h⟩ | ⟨_, _, h⟩ |
    ⟨r, _, hname, _, h⟩ | ⟨c, _, _, h⟩
  · simp [h, dbSaveOkAux]
  · simp [h, dbSaveOkAux, isDbSave]
  · simp [h, dbSaveOkAux, isDbSave]
  · simp [h, dbSaveOkAux, isDbSave, isSaverEnd, hname]
  · simp [h, dbSaveOkAux, isDbSave]

lemma runT_dbSaveOk (l : List InternalEvent) : ∀ (cn : Option String)
    (prev : Option ExternalEvent), dbSaveOkAux prev (runT cn l).2 = true := by
  induction l with
  | nil => intro cn prev; simp [runT, dbSaveOkAux]
  | cons e rest ih =>
      intro cn prev
      rw [runT]
      simp [dbSaveOkAux_append, chatStep_dbSaveOk, ih]

lemma chat_dbSaveOk (trace : List InternalEvent) (err : Option String) :
    dbSaveOkAux none (chat trace err) = true := by
  rw [chat_eq, dbSaveOkAux_append]
  refine Bool.and_eq_true_iff.mpr ⟨runT_dbSaveOk trace none none, ?_⟩
  cases err <;> simp [dbSaveOkAux, isDbSave, terminalOf]

/-- C6: a `db_save` is emitted only immediately after a `node_end` of the
saver stage (for every trace and termination, checked positionally by
`dbSaveOkAux`); when the saver's merged output contains a `saved_record`,
the handler emits `node_end("saver")` immediately followed by `db_save` in
the same iteration; and the saved record's `id` and `created_at` are the
fresh identifier and timestamp the store assigned during the save call,
not fields of the pre-existing state. -/
theorem c6_db_save_after_saver_end (trace : List InternalEvent)
    (err : Option String) (cn : Option String) (o : GOutput) (r : Record)
    (db : MockDatabase) (fid now : String) (d : SavePayload)
    (ho : o.saved_record = some r) :
    dbSaveOkAux none (chat trace err) = true ∧
    chatStep cn (endEvt "saver" o) =
      (cn, [ExternalEvent.node_end "saver" (strTake o.render 500),
            ExternalEvent.db_save r]) ∧
    (db.save fid now d).2.id = fid ∧
    (db.save fid now d).2.created_at = now :=
  ⟨chat_dbSaveOk trace err, chatStep_end_save cn o r ho, rfl, rfl⟩

/-- C6 witness: concrete instantiation — a successful run's event list
passes the placement scan, and the saver-end step emits the pair. -/
theorem c6_witness :
    (⟨"o3", some ⟨"id1", "t1", "u", "a", "r"⟩⟩ : GOutput).saved_record =
      some ⟨"id1", "t1", "u", "a", "r"⟩ ∧
    dbSaveOkAux none
      (chat (successTrace ["hi"] ["ok"] ⟨"o1", none⟩ ⟨"o2", none⟩ "o3"
        ⟨"id1", "t1", "u", "a", "r"⟩) none) = true ∧
    chatStep (some "saver") (endEvt "saver" ⟨"o3", some ⟨"id1", "t1", "u", "a", "r"⟩⟩) =
      (some "saver",
       [ExternalEvent.node_end "saver" (strTake "o3" 500),
        ExternalEvent.db_save ⟨"id1", "t1", "u", "a", "r"⟩]) ∧
    ((⟨[]⟩ : MockDatabase).save "id1" "t1" ⟨"u", "a", "r"⟩).2.id = "id1" ∧
    ((⟨[]⟩ : MockDatabase).save "id1" "t1" ⟨"u", "a", "r"⟩).2.created_at = "t1" :=
  ⟨rfl,
   (c6_db_save_after_saver_end
      (successTrace ["hi"] ["ok"] ⟨"o1", none⟩ ⟨"o2", none⟩ "o3"
        ⟨"id1", "t1", "u", "a", "r"⟩) none (some "saver")
      ⟨"o3", some ⟨"id1", "t1", "u", "a", "r"⟩⟩ ⟨"id1", "t1", "u", "a", "r"⟩
      ⟨[]⟩ "id1" "t1" ⟨"u", "a", "r"⟩ rfl).1,
   (c6_db_save_after_saver_end
      (successTrace ["hi"] ["ok"] ⟨"o1", none⟩ ⟨"o2", none⟩ "o3"
        ⟨"id1", "t1", "u", "a", "r"⟩) none (some "saver")
      ⟨"o3", some ⟨"id1", "t1", "u", "a", "r"⟩⟩ ⟨"id1", "t1", "u", "a", "r"⟩
      ⟨[]⟩ "id1" "t1" ⟨"u", "a", "r"⟩ rfl).2⟩

/-! ### Bounded summaries, saved records, token contents -/

lemma strTake_length_le (s : String) (n : Nat) : (strTake s n).length ≤ n := by
  show (s.data.take n).length ≤ n
  exact (List.length_take n s.data).le.trans (Nat.min_le_left _ _)

/-- Every `node_end` in the loop's output originates from an
`on_chain_end` internal event of the trace, and its summary is that event's
rendered output truncated to 500 characters. -/
lemma runT_node_end (l : List InternalEvent) : ∀ (cn : Option String)
    (n s : String), ExternalEvent.node_end n s ∈ (runT cn l).2 →
    ∃ e ∈ l, e.kind = "on_chain_end" ∧ e.name = n ∧
      s = strTake e.output.render 500 := by
  induction l with
  | nil => simp [runT]
  | cons e rest ih =>
      intro cn n s hmem
      rw [runT] at hmem
      rcases List.mem_append.mp hmem with h | h
      · rcases chatStep_snd_cases cn e with h0 | ⟨hk, hn, h0⟩ | ⟨hk, hn, h0⟩ |
          ⟨r, hk, hn, hsr, h0⟩ | ⟨c, hk, hc, h0⟩
        · rw [h0] at h; simp at h
        · rw [h0] at h; simp at h
        · rw [h0] at h
          simp at h
          exact ⟨e, by simp, hk, h.1.symm, h.2⟩
        · rw [h0] at h
          simp at h
          exact ⟨e, by simp, hk, h.1.symm, h.2⟩
        · rw [h0] at h; simp at h
      · obtain ⟨e2, he2, hk2, hn2, hs2⟩ := ih _ n s h
        exact ⟨e2, by simp [he2], hk2, hn2, hs2⟩

/-- C8: every `node_end` external event carries as its `output` field the
textual rendering `str(output)` of the corresponding internal event's merged
output, truncated to 500 characters, so its length never exceeds 500. -/
theorem c8_node_end_summary_bounded (trace : List InternalEvent)
    (err : Option String) (n s : String)
    (h : ExternalEvent.node_end n s ∈ chat trace err) :
    s.length ≤ 500 ∧
    ∃ e ∈ trace, e.kind = "on_chain_end" ∧ e.name = n ∧
      s = strTake e.output.render 500 := by
  rw [chat_eq] at h
  rcases List.mem_append.mp h with h | h
  · obtain ⟨e, he, hk, hn, hs⟩ := runT_node_end trace none n s h
    refine ⟨?_, e, he, hk, hn, hs⟩
    rw [hs]
    exact strTake_length_le _ _
  · cases err <;> simp [terminalOf] at h

/-- C8 witness: a trace with one `on_chain_end` for the analyzer. -/
theorem c8_witness :
    ExternalEvent.node_end "analyzer" (strTake "abc" 500) ∈
      chat [endEvt "analyzer" ⟨"abc", none⟩] none ∧
    ((strTake "abc" 500).length ≤ 500 ∧
     ∃ e ∈ [endEvt "analyzer" ⟨"abc", none⟩], e.kind = "on_chain_end" ∧
       e.name = "analyzer" ∧
       strTake "abc" 500 = strTake e.output.render 500) :=
  ⟨by decide,
   c8_node_end_summary_bounded [endEvt "analyzer" ⟨"abc", none⟩] none
     "analyzer" (strTake "abc" 500) (by decide)⟩

/-- C9: the saver stage's save call returns a record whose `user_input`,
`analysis` and `response` are exact copies of the state fields passed in,
whose `id` and `created_at` are the fresh identifier and timestamp the
store assigned during that call, and that record is appended to the store's
record list. -/
theorem c9_saved_record_copies_state (db : MockDatabase) (fid now : String)
    (s : SaverState) :
    (saver_node db fid now s).2.user_input = s.user_input ∧
    (saver_node db fid now s).2.analysis = s.analysis ∧
    (saver_node db fid now s).2.response = s.response ∧
    (saver_node db fid now s).2.id = fid ∧
    (saver_node db fid now s).2.created_at = now ∧
    (saver_node db fid now s).1.records =
      db.records ++ [(saver_node db fid now s).2] :=
  ⟨rfl, rfl, rfl, rfl, rfl, rfl⟩

/-- Every `token` in the loop's output has nonempty content. -/
lemma runT_token_nonempty (l : List InternalEvent) : ∀ (cn : Option String)
    (n : Option String) (c : String),
    ExternalEvent.token n c ∈ (runT cn l).2 → c ≠ "" := by
  induction l with
  | nil => simp [runT]
  | cons e rest ih =>
      intro cn n c hmem
      rw [runT] at hmem
      rcases List.mem_append.mp hmem with h | h
      · rcases chatStep_snd_cases cn e with h0 | ⟨hk, hn, h0⟩ | ⟨hk, hn, h0⟩ |
          ⟨r, hk, hn, hsr, h0⟩ | ⟨c0, hk, hc0, h0⟩
        · rw [h0] at h; simp at h
        · rw [h0] at h; simp at h
        · rw [h0] at h; simp at h
        · rw [h0] at h; simp at h
        · rw [h0] at h
          simp at h
          rw [h.2]
          exact hc0
      · exact ih _ n c h

/-- C10: every `token` forwarded to the client carries nonempty content;
a model-stream event whose chunk is absent or has empty content is
suppressed and produces no external event at all. -/
theorem c10_token_content_nonempty (trace : List InternalEvent)
    (err : Option String) (cn : Option String) (e : InternalEvent)
    (hk : e.kind = "on_chat_model_stream")
    (hc : e.chunk = none ∨ e.chunk = some ⟨""⟩) :
    (∀ (n : Option String) (c : String),
        ExternalEvent.token n c ∈ chat trace err → c ≠ "") ∧
    (chatStep cn e).2 = [] := by
  constructor
  · intro n c h
    rw [chat_eq] at h
    rcases List.mem_append.mp h with h | h
    · exact runT_token_nonempty trace none n c h
    · cases err <;> simp [terminalOf] at h
  · rcases hc with hc | hc <;> simp [chatStep, hk, hc]

/-- C10 witness: concrete trace with one nonempty chunk; the suppressed
event is a model-stream event with no chunk. -/
theorem c10_witness :
    ((⟨"on_chat_model_stream", "", emptyOut, none⟩ : InternalEvent).kind =
        "on_chat_model_stream" ∧
     ((⟨"on_chat_model_stream", "", emptyOut, none⟩ : InternalEvent).chunk = none ∨
      (⟨"on_chat_model_stream", "", emptyOut, none⟩ : InternalEvent).chunk =
        some ⟨""⟩)) ∧
    ((∀ (n : Option String) (c : String),
        ExternalEvent.token n c ∈ chat [tokenEvt "x"] none → c ≠ "") ∧
     (chatStep none ⟨"on_chat_model_stream", "", emptyOut, none⟩).2 = []) :=
  ⟨⟨rfl, Or.inl rfl⟩,
   c10_token_content_nonempty [tokenEvt "x"] none none
     ⟨"on_chat_model_stream", "", emptyOut, none⟩ rfl (Or.inl rfl)⟩

/-! ### Active stage tracking (executor side, modelled from the spec) -/

/-- Modelled from the spec (§3, §4.1): the stage currently active after one
internal event — set by a tracked `on_chain_start`, cleared by a tracked
`on_chain_end`, untouched by anything else. -/
def activeStep (a : Option String) (e : InternalEvent) : Option String :=
  if e.kind = "on_chain_start" ∧ e.name ∈ NODE_NAMES then some e.name
  else if e.kind = "on_chain_end" ∧ e.name ∈ NODE_NAMES then none
  else a

/-- The stage active after a list of internal events. -/
def activeAfter (a : Option String) : List InternalEvent → Option String
  | [] => a
  | e :: rest => activeAfter (activeStep a e) rest

/-- Modelled from the spec (§4.1): fragments occur strictly between their
stage's `StageEntered` and `StageExited` — every model-stream event of the
trace arrives while some stage is active. -/
def streamsInsideStages (a : Option String) : List InternalEvent → Bool
  | [] => true
  | e :: rest =>
      ((e.kind != "on_chat_model_stream") || a.isSome) &&
        streamsInsideStages (activeStep a e) rest

/-- Whenever a stage is active, the handler's `current_node` names it. -/
lemma step_R (a cn : Option String) (e : InternalEvent)
    (hR : ∀ t, a = some t → cn = some t) :
    ∀ t, activeStep a e = some t → (chatStep cn e).1 = some t := by
  intro t ht
  rw [chatStep_fst]
  unfold activeStep at ht
  split_ifs at ht ⊢ with h1 h2
  all_goals first
    | exact ht
    | exact hR t ht

/-- `current_node` only ever holds tracked node names. -/
lemma step_tracked (cn : Option String) (e : InternalEvent)
    (hcn : ∀ t, cn = some t → t ∈ NODE_NAMES) :
    ∀ t, (chatStep cn e).1 = some t → t ∈ NODE_NAMES := by
  intro t ht
  rw [chatStep_fst] at ht
  split_ifs at ht with h1
  · injection ht with h
    subst h
    exact h1.2
  · exact hcn t ht

lemma active_current (l : List InternalEvent) : ∀ (a cn : Option String),
    (∀ t, a = some t → cn = some t) →
    ∀ s, activeAfter a l = some s → (runT cn l).1 = some s := by
  induction l with
  | nil =>
      intro a cn hR s hs
      rw [activeAfter] at hs
      rw [runT]
      exact hR s hs
  | cons e rest ih =>
      intro a cn hR s hs
      rw [activeAfter] at hs
      rw [runT]
      exact ih (activeStep a e) (chatStep cn e).1 (step_R a cn e hR) s hs

/-- C4: when a model-stream chunk with content `c` is forwarded at a point
of the run where stage `s` is active (entered but not yet exited), the
emitted `token` event carries exactly `s` as its node — tokens are never
attributed to a stage that already exited, nor emitted with no stage
entered. -/
theorem c4_token_attributed_to_active_stage (pre : List InternalEvent)
    (c s : String) (hc : c ≠ "")
    (hact : activeAfter none pre = some s) :
    (chatStep (runT none pre).1 (tokenEvt c)).2 =
      [ExternalEvent.token (some s) c] := by
  have hcur : (runT none pre).1 = some s :=
    active_current pre none none (by intro t ht; cases ht) s hact
  rw [chatStep_token _ c hc, hcur]

/-- C4 witness: inside the analyzer stage, a chunk is attributed to the
analyzer. -/
theorem c4_witness :
    (("hi" : String) ≠ "" ∧
     activeAfter none [startEvt "analyzer"] = some "analyzer") ∧
    (chatStep (runT none [startEvt "analyzer"]).1 (tokenEvt "hi")).2 =
      [ExternalEvent.token (some "analyzer") "hi"] :=
  ⟨⟨by decide, by decide⟩,
   c4_token_attributed_to_active_stage [startEvt "analyzer"] "hi" "analyzer"
     (by decide) (by decide)⟩

/-- The node payload an external event carries, when it carries one. -/
def nodeFieldOf : ExternalEvent → Option (Option String)
  | ExternalEvent.node_start n => some (some n)
  | ExternalEvent.node_end n _ => some (some n)
  | ExternalEvent.token n _ => some n
  | _ => none

lemma runT_nodes_tracked (l : List InternalEvent) : ∀ (a cn : Option String),
    streamsInsideStages a l = true →
    (∀ t, a = some t → cn = some t) →
    (∀ t, cn = some t → t ∈ NODE_NAMES) →
    ∀ ev ∈ (runT cn l).2, ∀ no, nodeFieldOf ev = some no →
      ∃ s, no = some s ∧ s ∈ NODE_NAMES := by
  induction l with
  | nil =>
      intro a cn _ _ _ ev hev
      rw [runT] at hev
      simp at hev
  | cons e rest ih =>
      intro a cn hws hR hcn ev hev no hno
      rw [streamsInsideStages] at hws
      have hws1 := (Bool.and_eq_true_iff.mp hws).1
      have hws2 := (Bool.and_eq_true_iff.mp hws).2
      rw [runT] at hev
      rcases List.mem_append.mp hev with h | h
      · rcases chatStep_snd_cases cn e with h0 | ⟨hk, hn, h0⟩ | ⟨hk, hn, h0⟩ |
          ⟨r, hk, hn, hsr, h0⟩ | ⟨c0, hk, hc0, h0⟩
        · rw [h0] at h; simp at h
        · rw [h0] at h
          simp at h
          subst h
          simp [nodeFieldOf] at hno
          exact ⟨e.name, hno.symm, hn⟩
        · rw [h0] at h
          simp at h
          subst h
          simp [nodeFieldOf] at hno
          exact ⟨e.name, hno.symm, hn⟩
        · rw [h0] at h
          simp at h
          rcases h with h | h
          · subst h
            simp [nodeFieldOf] at hno
            exact ⟨e.name, hno.symm, by rw [hn]; simp [NODE_NAMES]⟩
          · subst h
            simp [nodeFieldOf] at hno
        · rw [h0] at h
          simp at h
          subst h
          simp [nodeFieldOf] at hno
          rw [hk] at hws1
          simp at hws1
          obtain ⟨t, ht⟩ := Option.isSome_iff_exists.mp hws1
          exact ⟨t, by rw [← hno, hR t ht], hcn t (hR t ht)⟩
      · exact ih (activeStep a e) (chatStep cn e).1 hws2 (step_R a cn e hR)
          (step_tracked cn e hcn) ev h no hno

/-- C5: provided the executor delivers model-stream events only while a
stage is active (spec §4.1), every external event that carries a node field
(`node_start`, `node_end`, `token`) carries one of the three tracked stage
names; and any internal boundary event whose name is outside `NODE_NAMES`
is filtered — the handler forwards nothing for it. -/
theorem c5_node_values_from_fixed_set (trace : List InternalEvent)
    (err : Option String) (cn : Option String) (e : InternalEvent)
    (hws : streamsInsideStages none trace = true)
    (hk : e.kind = "on_chain_start" ∨ e.kind = "on_chain_end")
    (hn : e.name ∉ NODE_NAMES) :
    (∀ ev ∈ chat trace err, ∀ no, nodeFieldOf ev = some no →
        ∃ s, no = some s ∧ s ∈ NODE_NAMES) ∧
    (chatStep cn e).2 = [] := by
  constructor
  · intro ev hev no hno
    rw [chat_eq] at hev
    rcases List.mem_append.mp hev with h | h
    · exact runT_nodes_tracked trace none none hws (by intro t ht; cases ht)
        (by intro t ht; cases ht) ev h no hno
    · cases err with
      | none => simp [terminalOf] at h; subst h; simp [nodeFieldOf] at hno
      | some m => simp [terminalOf] at h; subst h; simp [nodeFieldOf] at hno
  · rcases hk with hk | hk <;> simp [chatStep, hk, hn]

/-- C5 witness: a well-formed one-stage trace, and the graph-level
`on_chain_start` named `"LangGraph"` is filtered. -/
theorem c5_witness :
    (streamsInsideStages none
        [startEvt "analyzer", tokenEvt "x", endEvt "analyzer" ⟨"", none⟩] = true ∧
     ((startEvt "LangGraph").kind = "on_chain_start" ∨
      (startEvt "LangGraph").kind = "on_chain_end") ∧
     (startEvt "LangGraph").name ∉ NODE_NAMES) ∧
    ((∀ ev ∈ chat [startEvt "analyzer", tokenEvt "x",
          endEvt "analyzer" ⟨"", none⟩] none,
        ∀ no, nodeFieldOf ev = some no →
          ∃ s, no = some s ∧ s ∈ NODE_NAMES) ∧
     (chatStep none (startEvt "LangGraph")).2 = []) :=
  ⟨⟨by decide, Or.inl rfl, by decide⟩,
   c5_node_values_from_fixed_set
     [startEvt "analyzer", tokenEvt "x", endEvt "analyzer" ⟨"", none⟩] none
     none (startEvt "LangGraph") (by decide) (Or.inl rfl) (by decide)⟩

/-! ### Second message on a busy session -/

/-- The internal trace of the run started for a second `chat` message — a
concrete successful run. The handler keeps no per-session record of an
in-flight run, so this message is processed exactly like any other. -/
def secondRunTrace : List InternalEvent :=
  successTrace ["hi"] ["ok"] ⟨"o1", none⟩ ⟨"o2", none⟩ "o3"
    ⟨"id-2", "t-2", "second", "a", "r"⟩

/-- C3 counterexample: the `chat` handler consults no session state, so a
second message arriving on a session with an in-flight run is not rejected:
the handler starts a full new run for it (`node_start(analyzer)` is
emitted) and that run's terminal event is `done`, not an error. -/
theorem c3_counterexample_second_run_starts :
    ExternalEvent.node_start "analyzer" ∈ chat secondRunTrace none ∧
    (chat secondRunTrace none).filter isTerminal = [ExternalEvent.done true] := by
  decide

/-- C3 amended: there is no session registry and no `AlreadyRunning`
rejection — a second `chat` message while a run is active starts a second,
full run whose complete event sequence is streamed to the same connection,
while the first run's own event sequence (still ending in its `done` or
`error`) is unchanged. -/
theorem c3_amended_second_message_starts_new_run (t1 : List InternalEvent)
    (e1 : Option String) :
    chat t1 e1 ++ chat secondRunTrace none =
      chat t1 e1 ++
        [ExternalEvent.node_start "analyzer",
         ExternalEvent.token (some "analyzer") "hi",
         ExternalEvent.node_end "analyzer" (strTake "o1" 500),
         ExternalEvent.node_start "generator",
         ExternalEvent.token (some "generator") "ok",
         ExternalEvent.node_end "generator" (strTake "o2" 500),
         ExternalEvent.node_start "saver",
         ExternalEvent.node_end "saver" (strTake "o3" 500),
         ExternalEvent.db_save ⟨"id-2", "t-2", "second", "a", "r"⟩,
         ExternalEvent.done true] ∧
    (chat t1 e1).getLast? = some (terminalOf e1) := by
  constructor
  · have h : chat secondRunTrace none =
        [ExternalEvent.node_start "analyzer",
         ExternalEvent.token (some "analyzer") "hi",
         ExternalEvent.node_end "analyzer" (strTake "o1" 500),
         ExternalEvent.node_start "generator",
         ExternalEvent.token (some "generator") "ok",
         ExternalEvent.node_end "generator" (strTake "o2" 500),
         ExternalEvent.node_start "saver",
         ExternalEvent.node_end "saver" (strTake "o3" 500),
         ExternalEvent.db_save ⟨"id-2", "t-2", "second", "a", "r"⟩,
         ExternalEvent.done true] := by decide
    rw [h]
  · exact chat_getLast t1 e1

end DeepStreaming
